import Mathlib

/-!
Verification of the recursive task-decomposition engine of the deep research
agent (`_deep_research_agent.py`).

The stateful agent methods are embedded as pure functions over an explicit
`AgentState`.  Every call to the underlying language model is replaced by a
parameter carrying the (arbitrary) structured payload the model returned, so
the theorems quantify over all possible model behaviours.  File writes are
recorded as the list of ordinal suffixes of the intermediate report files.
-/

namespace DeepResearch

/-- `SubTaskItem` (pydantic model): objective plus optional working plan and
knowledge gaps, the latter two defaulting to `None`. -/
structure SubTaskItem where
  objective : String
  working_plan : Option String := none
  knowledge_gaps : Option String := none
deriving DecidableEq, Repr

/-- A content block of a message: text, a tool-use request, or a tool result. -/
inductive Block where
  | text (s : String)
  | toolUse (id : String) (toolName : String)
  | toolResult (id : String) (toolName : String)
deriving DecidableEq, Repr

/-- The name carried by a tool-use or tool-result block. -/
def Block.blockName : Block → Option String
  | .toolUse _ n => some n
  | .toolResult _ n => some n
  | .text _ => none

/-- Whether a block is a tool-use block. -/
def Block.isToolUse : Block → Bool
  | .toolUse _ _ => true
  | _ => false

/-- A memory message: sender name, role, content blocks, and the
`is_report_msg` metadata flag used to mark report boundaries. -/
structure Msg where
  name : String
  role : String
  blocks : List Block
  isReportMsg : Bool := false
deriving DecidableEq, Repr

/-- The registered name of the summarize tool. -/
def summarize_function : String := "summarize_intermediate_results"

/-- The registered name of the reflection tool. -/
def reflect_function : String := "reflect_failure"

/-- `msg.has_content_blocks("tool_use")`. -/
def Msg.hasToolUse (m : Msg) : Bool :=
  m.blocks.any Block.isToolUse

/-- `msg.get_content_blocks("tool_use")`. -/
def Msg.toolUseBlocks (m : Msg) : List Block :=
  m.blocks.filter Block.isToolUse

/-- Whether some tool-use block of the message names the summarize tool
(the stop test of `_replace_intermediate_memory`). -/
def Msg.hasSummarizeToolUse (m : Msg) : Bool :=
  m.toolUseBlocks.any fun b => b.blockName == some summarize_function

/-- The agent state: the subtask stack (`current_subtask`, last element is the
active subtask), the depth bound, the memory log, the next report ordinal
(`report_index`, initialized to 1), and the ordinals of the intermediate
report files written so far during the run. -/
structure AgentState where
  current_subtask : List SubTaskItem := []
  max_depth : Nat := 3
  memory : List Msg := []
  report_index : Nat := 1
  written_reports : List Nat := []
deriving DecidableEq, Repr

/-- In-place mutation of the last element of a list
(`self.current_subtask[-1].field = ...`); the empty list is left unchanged. -/
def modifyLast (f : α → α) (l : List α) : List α :=
  l.dropLast ++ (l.getLast?.map f).toList

/-- Set `current_subtask[-1].knowledge_gaps`. -/
def setTopKnowledgeGaps (st : AgentState) (g : Option String) : AgentState :=
  { st with current_subtask :=
      modifyLast (fun t => { t with knowledge_gaps := g }) st.current_subtask }

/-- Set `current_subtask[-1].working_plan`. -/
def setTopWorkingPlan (st : AgentState) (p : Option String) : AgentState :=
  { st with current_subtask :=
      modifyLast (fun t => { t with working_plan := p }) st.current_subtask }

/-- `current_subtask.append(SubTaskItem(objective=objective))`. -/
def pushSubtask (st : AgentState) (objective : String) : AgentState :=
  { st with current_subtask := st.current_subtask ++ [{ objective := objective }] }

/-- `prompt_dict["max_depth_hint"]`. -/
def max_depth_hint : String :=
  "The search depth has reached the maximum limit. So the current subtask can not be further decomposed and expanded anymore. I need to find another way to get it done no matter what."

/-- `prompt_dict["retry_hint"]`, formatted with the failing state. -/
def retry_hint (state : String) : String :=
  "Something went wrong when " ++ state ++ ". I need to retry."

/-- `prompt_dict["sufficient_hint"]`. -/
def sufficient_hint : String :=
  "The information after web search and extraction is sufficient enough!"

/-- `prompt_dict["need_deeper_hint"]`. -/
def need_deeper_hint : String :=
  "The information is insufficient and I need to make deeper research to fill the knowledge gap."

/-- `prompt_dict["no_result_hint"]`. -/
def no_result_hint : String :=
  "I mistakenly called the \x60summarize_intermediate_results\x60 tool as there exists no milestone result to summarize now."

/-- `_get_intermediate_memory`: walk the memory backwards collecting messages
until one flagged `is_report_msg` is met; with `remove_last_tool_use` the
trailing run of tool-use messages is dropped as well. -/
def get_intermediate_memory (mem : List Msg) (remove_last_tool_use : Bool) : List Msg :=
  let im := (mem.reverse.takeWhile (fun m => !m.isReportMsg)).reverse
  if remove_last_tool_use then (im.reverse.dropWhile Msg.hasToolUse).reverse else im

/-- The `remove_num` count of `_replace_intermediate_memory`, computed on the
reversed memory: walk until a report message, a user message, or a tool-use
message naming the summarize tool is met, counting the other messages. -/
def replaceRemoveNum : List Msg → Nat
  | [] => 0
  | m :: rest =>
    if m.isReportMsg then 0
    else if m.role == "user" then 0
    else if m.hasToolUse then
      if m.hasSummarizeToolUse then 0 else replaceRemoveNum rest + 1
    else replaceRemoveNum rest + 1

/-- `_replace_intermediate_memory`: delete the indices
`range(len(memory) - remove_num, len(memory))` from memory. -/
def replace_intermediate_memory (mem : List Msg) : List Msg :=
  mem.take (mem.length - replaceRemoveNum mem.reverse)

/-- The report message appended to memory by
`summarize_intermediate_results` in the system-invoked case. -/
def reportMsg (reportText : String) : Msg :=
  { name := "assistant", role := "assistant",
    blocks := [.text reportText], isReportMsg := true }

/-- `intermediate_memory[-1].name == self.summarize_function`: the
agent-actively-called test of `summarize_intermediate_results`. -/
def activeSummarizeCall (im : List Msg) : Bool :=
  (im.getLast?.map Msg.name) == some summarize_function

/-- `intermediate_memory[-1]` has tool-use blocks and the first one names the
summarize tool: the test choosing the tool-response branch of
`summarize_intermediate_results`. -/
def lastIsSummarizeToolUse (im : List Msg) : Bool :=
  match im.getLast? with
  | some m => m.hasToolUse &&
      ((m.toolUseBlocks.head?.bind Block.blockName) == some summarize_function)
  | none => false

/-- Outcome of `summarize_intermediate_results`: the no-result early
return, the tool-response branch (report text and file ordinal, flagged
`is_report_msg`), or the branch that appends the report to memory. -/
inductive SummarizeResult where
  | noResultHint
  | updateReportHint (report : String) (ordinal : Nat)
  | saveReportHint (report : String)
deriving DecidableEq, Repr

/-- `summarize_intermediate_results`.  `gapsFromModel` is the model output of
the knowledge-gap re-examination in the agent-actively-called case and
`reportFromModel` is the model-produced report text; the file write is
recorded by appending the ordinal `report_index` to `written_reports`. -/
def summarize_intermediate_results (st : AgentState) (gapsFromModel reportFromModel : String) :
    AgentState × SummarizeResult :=
  let im := get_intermediate_memory st.memory false
  if im.length = 0 then (st, .noResultHint)
  else
    let st1 := if activeSummarizeCall im
      then setTopKnowledgeGaps st (some gapsFromModel) else st
    let ordinal := st1.report_index
    let st2 := { st1 with
      report_index := st1.report_index + 1,
      written_reports := st1.written_reports ++ [ordinal] }
    let st3 := { st2 with memory := replace_intermediate_memory st2.memory }
    if lastIsSummarizeToolUse im then
      (st3, .updateReportHint reportFromModel ordinal)
    else
      ({ st3 with memory := st3.memory ++ [reportMsg reportFromModel] },
       .saveReportHint reportFromModel)

/-- The `FollowupJudge` structured payload, with Python dict-`get` defaults:
a missing `knowledge_gap_revision` is the falsy empty string. -/
structure FollowupJudge where
  reasoning : Option String := none
  knowledge_gap_revision : String := ""
  to_further_explore : Bool := false
  subtask : String := ""
deriving DecidableEq, Repr

/-- Outcome of `_follow_up` after the judge ran: push a deeper subtask
(carrying the intermediate report as `metadata`), accept the evidence as
sufficient, or return the depth hint. -/
inductive FollowUpResult where
  | deeperHint (text : String) (intermediate_report : SummarizeResult)
  | sufficientHint (text : String)
  | depthLimited (text : String)
deriving DecidableEq, Repr

/-- The knowledge-gap revision applied by `_follow_up` before branching:
a truthy (non-empty) `knowledge_gap_revision` replaces the active gaps. -/
def followUpBase (st : AgentState) (j : FollowupJudge) : AgentState :=
  if j.knowledge_gap_revision = "" then st
  else setTopKnowledgeGaps st (some j.knowledge_gap_revision)

/-- The branching tail of `_follow_up` (the expansion/extraction steps before
it only add messages to memory and call the model, which is parametrized
away by the judge payload `j`). -/
def follow_up (st : AgentState) (j : FollowupJudge) (gapsFromModel reportFromModel : String) :
    AgentState × FollowUpResult :=
  let st0 := followUpBase st j
  if j.to_further_explore ∧ st0.current_subtask.length < st0.max_depth then
    let pr := summarize_intermediate_results st0 gapsFromModel reportFromModel
    ({ pr.1 with current_subtask := pr.1.current_subtask ++ [{ objective := j.subtask }] },
     .deeperHint (j.reasoning.getD need_deeper_hint) pr.2)
  else if !j.to_further_explore then
    (st0, .sufficientHint (j.reasoning.getD sufficient_hint))
  else
    (st0, .depthLimited max_depth_hint)

/-- The nested `rephrase_subtask` dict of the `ReflectFailure` payload;
`none` stands for a missing or falsy (empty) dict. -/
structure RephraseSubtask where
  need_rephrase : Bool := false
  rephrased_plan : String := ""
deriving DecidableEq, Repr

/-- The nested `decompose_subtask` dict of the `ReflectFailure` payload. -/
structure DecomposeSubtask where
  need_decompose : Bool := false
  failed_subtask : String := ""
deriving DecidableEq, Repr

/-- The `ReflectFailure` structured judgment payload. -/
structure ReflectFailure where
  rephrase_subtask : Option RephraseSubtask := none
  decompose_subtask : Option DecomposeSubtask := none
deriving DecidableEq, Repr

/-- Truthiness of `reflection.get("rephrase_subtask", False)` together with
its `need_rephrase` flag. -/
def rephraseRequested (r : ReflectFailure) : Bool :=
  match r.rephrase_subtask with
  | some rp => rp.need_rephrase
  | none => false

/-- Truthiness of `reflection.get("decompose_subtask", False)` together with
its `need_decompose` flag. -/
def decomposeRequested (r : ReflectFailure) : Bool :=
  match r.decompose_subtask with
  | some dc => dc.need_decompose
  | none => false

/-- The backwards search of `reflect_failure` for the message carrying the
`reflect_failure` tool call, its content truncated to `[msg.content[i]]`
where `i` is the index of that call among the tool-use blocks. -/
def findReflectSaveMsgGo : List Msg → Option Msg
  | [] => none
  | m :: rest =>
    match m.toolUseBlocks.findIdx? (fun b => b.blockName == some reflect_function) with
    | some i => some { m with blocks := m.blocks[i]?.toList }
    | none => findReflectSaveMsgGo rest

/-- `save_msg` of the decompose branch of `reflect_failure`. -/
def findReflectSaveMsg (mem : List Msg) : Option Msg :=
  findReflectSaveMsgGo mem.reverse

/-- Outcome of `reflect_failure`: the working plan was rephrased, a child
subtask was pushed (carrying the intermediate report as metadata), the depth
hint was returned, or no structural action was taken (which covers both the
parse-failure retry hint and a payload requesting neither branch). -/
inductive ReflectResult where
  | rephrased
  | decomposed (intermediate_report : SummarizeResult)
  | depthLimited (text : String)
  | noStructuralAction
deriving DecidableEq, Repr

/-- `reflect_failure`.  `r = none` models the model/parse failure in which
`reflection` stays the empty dict and the retry hint is the response. -/
def reflect_failure (st : AgentState) (r : Option ReflectFailure)
    (gapsFromModel reportFromModel : String) : AgentState × ReflectResult :=
  let reflection := r.getD {}
  if rephraseRequested reflection then
    (setTopWorkingPlan st (some ((reflection.rephrase_subtask.getD {}).rephrased_plan)),
     .rephrased)
  else if decomposeRequested reflection then
    if st.current_subtask.length ≤ st.max_depth then
      let saveMsg := findReflectSaveMsg st.memory
      let pr := summarize_intermediate_results st gapsFromModel reportFromModel
      let st2 := { pr.1 with memory := pr.1.memory ++ saveMsg.toList }
      ({ st2 with current_subtask := st2.current_subtask ++
          [{ objective := (reflection.decompose_subtask.getD {}).failed_subtask }] },
       .decomposed pr.2)
    else
      (st, .depthLimited max_depth_hint)
  else
    (st, .noStructuralAction)

/-- The `SubtasksDecomposition` structured payload, fields read with
`.get(..., None)`. -/
structure SubtasksDecomposition where
  knowledge_gaps : Option String := none
  working_plan : Option String := none
deriving DecidableEq, Repr

/-- Outcome of `decompose_and_expand_subtask`. -/
inductive DecomposeResult where
  | planProduced (gaps plan : Option String)
  | retryHintGiven (text : String)
  | depthLimited (text : String)
deriving DecidableEq, Repr

/-- The `state` string formatted into the retry hint of
`decompose_and_expand_subtask`. -/
def decomposing_state : String := "decomposing the subtask"

/-- `decompose_and_expand_subtask`.  `payload = none` models the model/parse
failure: `gaps_and_plan` stays `{}` and the retry hint is the response, and
the active subtask fields are set from the (empty) dict with `None` default
in either case. -/
def decompose_and_expand_subtask (st : AgentState) (payload : Option SubtasksDecomposition) :
    AgentState × DecomposeResult :=
  if st.current_subtask.length ≤ st.max_depth then
    let gaps_and_plan := payload.getD {}
    let res := match payload with
      | some p => DecomposeResult.planProduced p.knowledge_gaps p.working_plan
      | none => DecomposeResult.retryHintGiven (retry_hint decomposing_state)
    let st1 := setTopKnowledgeGaps st gaps_and_plan.knowledge_gaps
    let st2 := setTopWorkingPlan st1 gaps_and_plan.working_plan
    (st2, res)
  else
    (st, .depthLimited max_depth_hint)

/-- The non-exit tool response of `finish_current_subtask` in the pop case. -/
inductive FinishResult where
  | subtaskComplete (cur_obj next_obj : String)
deriving DecidableEq, Repr

/-- `finish_current_subtask`: pops the top subtask and reports it when more
than one record is on the stack; in the terminal (`length <= 1`) branch the
source constructs the all-done `ToolResponse` but never returns it, so the
tool call yields `None`, embedded here as `none`. -/
def finish_current_subtask (st : AgentState) : AgentState × Option FinishResult :=
  if 1 < st.current_subtask.length then
    let completed := (st.current_subtask.getLast?.getD { objective := "" })
    let st1 := { st with current_subtask := st.current_subtask.dropLast }
    (st1, some (.subtaskComplete completed.objective
      (st1.current_subtask.getLast?.getD { objective := "" }).objective))
  else
    (st, none)

/-- The unconditional `self.current_subtask.pop()` of `generate_response`. -/
def generate_response_pop (st : AgentState) : AgentState :=
  { st with current_subtask := st.current_subtask.dropLast }

/-- Root-subtask creation of `deep_research_pre_reply_hook` followed by the
initial `decompose_and_expand_subtask` call, starting the reply from the
empty stack left by `__init__`/`deep_research_post_reply_hook`. -/
def initReply (md : Nat) (q : String) (p0 : Option SubtasksDecomposition) : AgentState :=
  (decompose_and_expand_subtask (pushSubtask { max_depth := md } q) p0).1

/-- One state-mutating event inside a reply: a follow-up judgment after a
search, a reflection tool call, a decomposition call, a direct summarize tool
call, finishing the current subtask, the pop of `generate_response`, or any
other activity, which only rewrites the memory log. -/
inductive ReplyEvent where
  | followUpEvt (j : FollowupJudge) (g rep : String)
  | reflectEvt (r : Option ReflectFailure) (g rep : String)
  | decomposeEvt (p : Option SubtasksDecomposition)
  | summarizeEvt (g rep : String)
  | finishEvt
  | genResponseEvt
  | memoryEvt (mem : List Msg)

/-- Apply one reply event to the state. -/
def replyStep (st : AgentState) : ReplyEvent → AgentState
  | .followUpEvt j g rep => (follow_up st j g rep).1
  | .reflectEvt r g rep => (reflect_failure st r g rep).1
  | .decomposeEvt p => (decompose_and_expand_subtask st p).1
  | .summarizeEvt g rep => (summarize_intermediate_results st g rep).1
  | .finishEvt => (finish_current_subtask st).1
  | .genResponseEvt => generate_response_pop st
  | .memoryEvt mem => { st with memory := mem }

/-- The state after the pre-reply hook and an arbitrary sequence of reply
events. -/
def runReply (md : Nat) (q : String) (p0 : Option SubtasksDecomposition)
    (events : List ReplyEvent) : AgentState :=
  events.foldl replyStep (initReply md q p0)

/-- The ordinals of the `inprocess_report_{index + 1}.md` files read back by
`_generate_deepresearch_report` (`for index in range(self.report_index)`). -/
def inprocess_report_ordinals (report_index : Nat) : List Nat :=
  (List.range report_index).map (· + 1)

/-- Which input `_generate_deepresearch_report` builds the draft from:
the intermediate artifacts (when `report_index > 1`) or the still-present
intermediate memory. -/
inductive ReportSource where
  | fromArtifacts (ordinals : List Nat)
  | fromMemory (msgs : List Msg)
deriving DecidableEq, Repr

/-- The draft source selected by `_generate_deepresearch_report`. -/
def generate_report_source (st : AgentState) : ReportSource :=
  if 1 < st.report_index then .fromArtifacts (inprocess_report_ordinals st.report_index)
  else .fromMemory (get_intermediate_memory st.memory true)

/-- Python truthiness of an optional string field: the empty string is falsy. -/
def truthyStr : Option String → Option String
  | some s => if s = "" then none else some s
  | none => none

/-- `prompt_dict["reasoning_prompt"]` formatted as in
`deep_research_pre_reasoning_hook`. -/
def reasoning_prompt (objective : String) (plan gaps : Option String) (depth : Nat) : String :=
  "## Current Subtask:\n" ++ objective ++ "\n## Working Plan:\n" ++
  ((truthyStr plan).getD "There is no working plan now.") ++ "\n" ++
  (match truthyStr gaps with
   | some g => "## Knowledge Gaps:\n " ++ g
   | none => "") ++
  "\n## Research Depth:\n" ++ toString depth

/-- The reasoning-instruction message built and appended by
`deep_research_pre_reasoning_hook` as its final step. -/
def reasoning_prompt_msg (st : AgentState) : Msg :=
  let top := st.current_subtask.getLast?.getD { objective := "" }
  { name := "user", role := "user",
    blocks := [.text (reasoning_prompt top.objective top.working_plan
      top.knowledge_gaps st.current_subtask.length)] }

/-- The final step of `deep_research_pre_reasoning_hook`:
`await self.memory.add(reasoning_prompt_msg)`. -/
def pre_reasoning_hook_final (st : AgentState) : AgentState :=
  { st with memory := st.memory ++ [reasoning_prompt_msg st] }

/-- `deep_research_post_reasoning_hook`: when the memory holds more than one
message, delete the entry at index `size - 2`. -/
def deep_research_post_reasoning_hook (mem : List Msg) : List Msg :=
  if 1 < mem.length then mem.eraseIdx (mem.length - 2) else mem

/-! ### Helper lemmas about in-place mutation of the stack top -/

theorem modifyLast_nil (f : α → α) : modifyLast f [] = [] := rfl

theorem modifyLast_concat (f : α → α) (l : List α) (a : α) :
    modifyLast f (l ++ [a]) = l ++ [f a] := by
  simp [modifyLast]

theorem length_modifyLast (f : α → α) (l : List α) :
    (modifyLast f l).length = l.length := by
  induction l using List.reverseRecOn with
  | nil => rfl
  | append_singleton l a _ => simp [modifyLast_concat]

theorem getLast?_modifyLast (f : α → α) (l : List α) :
    (modifyLast f l).getLast? = l.getLast?.map f := by
  induction l using List.reverseRecOn with
  | nil => rfl
  | append_singleton l a _ => simp [modifyLast_concat]

theorem map_modifyLast (f : α → α) (g : α → β) (h : ∀ x, g (f x) = g x) (l : List α) :
    (modifyLast f l).map g = l.map g := by
  induction l using List.reverseRecOn with
  | nil => rfl
  | append_singleton l a _ => simp [modifyLast_concat, h]

theorem setTopKnowledgeGaps_length (st : AgentState) (g : Option String) :
    (setTopKnowledgeGaps st g).current_subtask.length = st.current_subtask.length := by
  simp [setTopKnowledgeGaps, length_modifyLast]

theorem setTopKnowledgeGaps_max_depth (st : AgentState) (g : Option String) :
    (setTopKnowledgeGaps st g).max_depth = st.max_depth := rfl

theorem setTopKnowledgeGaps_map_plan (st : AgentState) (g : Option String) :
    (setTopKnowledgeGaps st g).current_subtask.map SubTaskItem.working_plan
      = st.current_subtask.map SubTaskItem.working_plan := by
  simp only [setTopKnowledgeGaps]
  exact map_modifyLast (fun t => { t with knowledge_gaps := g })
    SubTaskItem.working_plan (fun x => rfl) st.current_subtask

theorem setTopWorkingPlan_length (st : AgentState) (p : Option String) :
    (setTopWorkingPlan st p).current_subtask.length = st.current_subtask.length := by
  simp [setTopWorkingPlan, length_modifyLast]

/-- `summarize_intermediate_results` never touches the subtask stack shape,
the depth bound, nor any working plan. -/
theorem summarize_shape (st : AgentState) (g rep : String) :
    (summarize_intermediate_results st g rep).1.current_subtask.length
        = st.current_subtask.length
    ∧ (summarize_intermediate_results st g rep).1.current_subtask.map SubTaskItem.working_plan
        = st.current_subtask.map SubTaskItem.working_plan
    ∧ (summarize_intermediate_results st g rep).1.max_depth = st.max_depth := by
  simp only [summarize_intermediate_results]
  split_ifs <;>
    simp [setTopKnowledgeGaps_length, setTopKnowledgeGaps_map_plan, setTopKnowledgeGaps_max_depth]

theorem eraseIdx_append_pair (l : List α) (a b : α) :
    (l ++ [a, b]).eraseIdx l.length = l ++ [b] := by
  induction l with
  | nil => rfl
  | cons x l ih => simpa [List.eraseIdx] using ih

/-! ### Claim theorems -/

/-- C9: pushing a `SubTaskItem` with objective `x` onto a non-empty stack and
popping right away via `finish_current_subtask` yields a record with
objective `x` and null working plan and knowledge gaps, and restores the
previous stack; the pop reports that objective. -/
theorem push_then_pop_symmetry (st : AgentState) (x : String)
    (h : st.current_subtask ≠ []) :
    (pushSubtask st x).current_subtask.getLast?
        = some { objective := x, working_plan := none, knowledge_gaps := none }
    ∧ (finish_current_subtask (pushSubtask st x)).1.current_subtask = st.current_subtask
    ∧ (finish_current_subtask (pushSubtask st x)).2
        = some (FinishResult.subtaskComplete x
            (st.current_subtask.getLast?.getD { objective := "" }).objective) := by
  have hpos : 0 < st.current_subtask.length := List.length_pos.mpr h
  have hlen : 1 < (pushSubtask st x).current_subtask.length := by
    simp only [pushSubtask, List.length_append, List.length_singleton]
    omega
  refine ⟨by simp [pushSubtask], ?_, ?_⟩ <;>
    simp [finish_current_subtask, hlen, hpos, pushSubtask, List.dropLast_concat]

/-- Concrete fixture state with a single root subtask. -/
def c9State : AgentState := { current_subtask := [{ objective := "root goal" }] }

/-- Concrete pushed objective. -/
def c9Objective : String := "child objective"

theorem push_then_pop_symmetry_witness :
    (pushSubtask c9State c9Objective).current_subtask.getLast?
        = some { objective := c9Objective, working_plan := none, knowledge_gaps := none }
    ∧ (finish_current_subtask (pushSubtask c9State c9Objective)).1.current_subtask
        = c9State.current_subtask
    ∧ (finish_current_subtask (pushSubtask c9State c9Objective)).2
        = some (FinishResult.subtaskComplete c9Objective
            (c9State.current_subtask.getLast?.getD { objective := "" }).objective) :=
  push_then_pop_symmetry c9State c9Objective (by decide)

/-- C10: the pre-reasoning hook ends by appending exactly the
reasoning-instruction message, and when the reasoning step then appends
exactly one output message, the post-reasoning hook (which deletes index
`size - 2` whenever more than one message is held) removes the instruction
again, leaving every earlier entry unchanged. -/
theorem reasoning_hook_roundtrip (st : AgentState) (outMsg : Msg) :
    (pre_reasoning_hook_final st).memory = st.memory ++ [reasoning_prompt_msg st]
    ∧ deep_research_post_reasoning_hook ((pre_reasoning_hook_final st).memory ++ [outMsg])
        = st.memory ++ [outMsg] := by
  refine ⟨rfl, ?_⟩
  have h : (pre_reasoning_hook_final st).memory ++ [outMsg]
      = st.memory ++ [reasoning_prompt_msg st, outMsg] := by
    simp [pre_reasoning_hook_final]
  rw [h]
  simp only [deep_research_post_reasoning_hook, List.length_append]
  rw [if_pos (by simp)]
  simpa using eraseIdx_append_pair st.memory (reasoning_prompt_msg st) outMsg

/-- C2: a reflection call never both rephrases and pushes.  When the payload
requests a rephrase — also when it simultaneously requests a decompose — the
rephrase branch alone runs and the stack length is unchanged; and whenever
the decompose branch ran, no rephrase was requested and every previous
working plan is intact, the stack having gained exactly one fresh record with
a null plan. -/
theorem reflect_failure_exclusive (st : AgentState) (r : ReflectFailure) (g rep : String) :
    (rephraseRequested r = true →
      (reflect_failure st (some r) g rep).2 = ReflectResult.rephrased
      ∧ (reflect_failure st (some r) g rep).1.current_subtask.length
          = st.current_subtask.length)
    ∧ (∀ sres, (reflect_failure st (some r) g rep).2 = ReflectResult.decomposed sres →
        rephraseRequested r = false
        ∧ (reflect_failure st (some r) g rep).1.current_subtask.map SubTaskItem.working_plan
            = st.current_subtask.map SubTaskItem.working_plan ++ [none]) := by
  cases hr : rephraseRequested r with
  | true =>
    refine ⟨fun _ => ⟨?_, ?_⟩, fun sres hs => ?_⟩
    · simp [reflect_failure, hr]
    · simp [reflect_failure, hr, setTopWorkingPlan_length]
    · simp [reflect_failure, hr] at hs
  | false =>
    refine ⟨fun h => absurd h (by simp [hr]), fun sres hs => ⟨rfl, ?_⟩⟩
    cases hd : decomposeRequested r with
    | false => simp [reflect_failure, hr, hd] at hs
    | true =>
      by_cases hlen : st.current_subtask.length ≤ st.max_depth
      · simp [reflect_failure, hr, hd, hlen, (summarize_shape st g rep).2.1]
      · simp [reflect_failure, hr, hd, hlen] at hs

/-- Fixture payload requesting both a rephrase and a decompose. -/
def c2BothPayload : ReflectFailure :=
  { rephrase_subtask := some { need_rephrase := true, rephrased_plan := "1. fixed step" },
    decompose_subtask := some { need_decompose := true, failed_subtask := "failing step" } }

/-- Fixture payload requesting only a decompose. -/
def c2DecomposePayload : ReflectFailure :=
  { decompose_subtask := some { need_decompose := true, failed_subtask := "failing step" } }

/-- Fixture state with a root subtask and one memory message. -/
def c2State : AgentState :=
  { current_subtask := [{ objective := "root goal" }],
    memory := [{ name := "assistant", role := "assistant", blocks := [Block.text "notes"] }] }

theorem reflect_failure_exclusive_witness :
    ((reflect_failure c2State (some c2BothPayload) "" "").2 = ReflectResult.rephrased
      ∧ (reflect_failure c2State (some c2BothPayload) "" "").1.current_subtask.length
          = c2State.current_subtask.length)
    ∧ (rephraseRequested c2DecomposePayload = false
      ∧ (reflect_failure c2State (some c2DecomposePayload) "" "").1.current_subtask.map
            SubTaskItem.working_plan
          = c2State.current_subtask.map SubTaskItem.working_plan ++ [none]) :=
  ⟨(reflect_failure_exclusive c2State c2BothPayload "" "").1 (by decide),
   (reflect_failure_exclusive c2State c2DecomposePayload "" "").2
      (SummarizeResult.saveReportHint "") (by decide)⟩

/-- Fixture state for the decomposition-failure claim. -/
def c4State : AgentState := { current_subtask := [{ objective := "root goal" }] }

/-- C4: when the structured decomposition call fails, the response is the
literal retry hint, the active subtask ends up with null plan and gaps, and
the stack length is unchanged. -/
theorem decompose_failure_retry_hint (st : AgentState)
    (hne : st.current_subtask ≠ []) (hd : st.current_subtask.length ≤ st.max_depth) :
    (decompose_and_expand_subtask st none).2
        = DecomposeResult.retryHintGiven (retry_hint decomposing_state)
    ∧ (∃ t, (decompose_and_expand_subtask st none).1.current_subtask.getLast? = some t
        ∧ t.working_plan = none ∧ t.knowledge_gaps = none)
    ∧ (decompose_and_expand_subtask st none).1.current_subtask.length
        = st.current_subtask.length := by
  obtain ⟨t0, ht0⟩ : ∃ t0, st.current_subtask.getLast? = some t0 := by
    cases h : st.current_subtask.getLast? with
    | none => exact absurd (List.getLast?_eq_none_iff.mp h) hne
    | some t0 => exact ⟨t0, rfl⟩
  refine ⟨by simp [decompose_and_expand_subtask, hd], ⟨{ objective := t0.objective }, ?_⟩, ?_⟩
  · simp [decompose_and_expand_subtask, hd, setTopWorkingPlan, setTopKnowledgeGaps,
      getLast?_modifyLast, ht0]
  · simp [decompose_and_expand_subtask, hd, setTopWorkingPlan, setTopKnowledgeGaps,
      length_modifyLast]

theorem decompose_failure_retry_hint_witness :
    (decompose_and_expand_subtask c4State none).2
        = DecomposeResult.retryHintGiven (retry_hint decomposing_state)
    ∧ (∃ t, (decompose_and_expand_subtask c4State none).1.current_subtask.getLast? = some t
        ∧ t.working_plan = none ∧ t.knowledge_gaps = none)
    ∧ (decompose_and_expand_subtask c4State none).1.current_subtask.length
        = c4State.current_subtask.length :=
  decompose_failure_retry_hint c4State (by decide) (by decide)

/-- C3: when the judge proposes further exploration, either the depth budget
allows it, and then `summarize_intermediate_results` runs first (on the
state after the gap revision), its result travels in the response metadata
and a fresh `SubTaskItem` with the proposed objective is appended afterwards;
or the depth check fails and nothing is appended, the depth hint being
returned. -/
theorem follow_up_deeper_or_blocked (st : AgentState) (j : FollowupJudge) (g rep : String)
    (hexp : j.to_further_explore = true) :
    ((followUpBase st j).current_subtask.length < (followUpBase st j).max_depth →
      follow_up st j g rep
        = ({ (summarize_intermediate_results (followUpBase st j) g rep).1 with
              current_subtask :=
                (summarize_intermediate_results (followUpBase st j) g rep).1.current_subtask
                  ++ [{ objective := j.subtask }] },
           FollowUpResult.deeperHint (j.reasoning.getD need_deeper_hint)
             (summarize_intermediate_results (followUpBase st j) g rep).2))
    ∧ ((followUpBase st j).max_depth ≤ (followUpBase st j).current_subtask.length →
      follow_up st j g rep = (followUpBase st j, FollowUpResult.depthLimited max_depth_hint)) := by
  constructor
  · intro hlt
    simp [follow_up, hexp, hlt]
  · intro hge
    have hnlt : ¬ ((followUpBase st j).current_subtask.length
        < (followUpBase st j).max_depth) := by omega
    simp [follow_up, hexp, hnlt]

/-- Fixture judge payload proposing deeper exploration. -/
def c3Judge : FollowupJudge := { to_further_explore := true, subtask := "dig deeper" }

/-- Fixture state with remaining depth budget. -/
def c3State : AgentState :=
  { current_subtask := [{ objective := "root goal" }], max_depth := 2,
    memory := [{ name := "assistant", role := "assistant", blocks := [Block.text "evidence"] }] }

/-- Fixture state whose stack already sits at the depth bound. -/
def c3Shallow : AgentState := { c3State with max_depth := 1 }

theorem follow_up_deeper_or_blocked_witness :
    (follow_up c3State c3Judge "" ""
        = ({ (summarize_intermediate_results (followUpBase c3State c3Judge) "" "").1 with
              current_subtask :=
                (summarize_intermediate_results
                    (followUpBase c3State c3Judge) "" "").1.current_subtask
                  ++ [{ objective := c3Judge.subtask }] },
           FollowUpResult.deeperHint (c3Judge.reasoning.getD need_deeper_hint)
             (summarize_intermediate_results (followUpBase c3State c3Judge) "" "").2))
    ∧ (follow_up c3Shallow c3Judge "" ""
        = (followUpBase c3Shallow c3Judge, FollowUpResult.depthLimited max_depth_hint)) :=
  ⟨(follow_up_deeper_or_blocked c3State c3Judge "" "" rfl).1 (by decide),
   (follow_up_deeper_or_blocked c3Shallow c3Judge "" "" rfl).2 (by decide)⟩

/-! ### Preservation lemmas for the reply-event step -/

theorem followUpBase_max_depth (st : AgentState) (j : FollowupJudge) :
    (followUpBase st j).max_depth = st.max_depth := by
  simp only [followUpBase]
  split_ifs <;> rfl

theorem followUpBase_length (st : AgentState) (j : FollowupJudge) :
    (followUpBase st j).current_subtask.length = st.current_subtask.length := by
  simp only [followUpBase]
  split_ifs <;> simp [setTopKnowledgeGaps_length]

theorem replyStep_max_depth (st : AgentState) (e : ReplyEvent) :
    (replyStep st e).max_depth = st.max_depth := by
  cases e with
  | followUpEvt j g rep =>
    simp only [replyStep, follow_up]
    split_ifs <;>
      simp [(summarize_shape (followUpBase st j) g rep).2.2, followUpBase_max_depth]
  | reflectEvt r g rep =>
    simp only [replyStep, reflect_failure]
    split_ifs <;> simp [setTopWorkingPlan, (summarize_shape st g rep).2.2]
  | decomposeEvt p =>
    simp only [replyStep, decompose_and_expand_subtask]
    split_ifs <;> simp [setTopWorkingPlan, setTopKnowledgeGaps]
  | summarizeEvt g rep => exact (summarize_shape st g rep).2.2
  | finishEvt =>
    simp only [replyStep, finish_current_subtask]
    split_ifs <;> rfl
  | genResponseEvt => rfl
  | memoryEvt mem => rfl

theorem replyStep_length_le (st : AgentState) (e : ReplyEvent)
    (h : st.current_subtask.length ≤ st.max_depth + 1) :
    (replyStep st e).current_subtask.length ≤ st.max_depth + 1 := by
  cases e with
  | followUpEvt j g rep =>
    by_cases hc : j.to_further_explore = true
        ∧ (followUpBase st j).current_subtask.length < (followUpBase st j).max_depth
    · have hs := (summarize_shape (followUpBase st j) g rep).1
      have hb := followUpBase_length st j
      have hbm := followUpBase_max_depth st j
      have hlt := hc.2
      simp only [replyStep, follow_up, if_pos hc, List.length_append, List.length_singleton]
      omega
    · simp only [replyStep, follow_up, if_neg hc]
      split_ifs <;> simpa [followUpBase_length] using h
  | reflectEvt r g rep =>
    have hs := (summarize_shape st g rep).1
    simp only [replyStep, reflect_failure]
    split_ifs with h1 h2 h3 <;>
      simp_all [setTopWorkingPlan_length, List.length_append]
  | decomposeEvt p =>
    simp only [replyStep, decompose_and_expand_subtask]
    split_ifs <;> simpa [setTopWorkingPlan_length, setTopKnowledgeGaps_length] using h
  | summarizeEvt g rep =>
    simpa [replyStep, (summarize_shape st g rep).1] using h
  | finishEvt =>
    simp only [replyStep, finish_current_subtask]
    split_ifs <;> simp [List.length_dropLast] <;> omega
  | genResponseEvt =>
    simp only [replyStep, generate_response_pop, List.length_dropLast]
    omega
  | memoryEvt mem => exact h

theorem foldl_replyStep_inv (events : List ReplyEvent) :
    ∀ st : AgentState, st.current_subtask.length ≤ st.max_depth + 1 →
      (events.foldl replyStep st).current_subtask.length
          ≤ (events.foldl replyStep st).max_depth + 1
      ∧ (events.foldl replyStep st).max_depth = st.max_depth := by
  induction events with
  | nil => exact fun st h => ⟨h, rfl⟩
  | cons e es ih =>
    intro st h
    simp only [List.foldl_cons]
    have h1 := replyStep_length_le st e h
    have h2 := replyStep_max_depth st e
    have h3 := ih (replyStep st e) (by rw [h2]; exact h1)
    exact ⟨h3.1, by rw [h3.2, h2]⟩

theorem initReply_shape (md : Nat) (q : String) (p0 : Option SubtasksDecomposition) :
    (initReply md q p0).current_subtask.length = 1
    ∧ (initReply md q p0).max_depth = md := by
  simp only [initReply, decompose_and_expand_subtask, pushSubtask]
  split_ifs <;>
    simp [setTopWorkingPlan, setTopKnowledgeGaps, length_modifyLast]

/-- Fixture state for the depth claim: the stack already holds `max_depth`
records. -/
def c1State : AgentState :=
  { current_subtask := [{ objective := "root goal" }], max_depth := 1 }

/-- Fixture state whose stack holds `max_depth + 1` records. -/
def c1DeepState : AgentState :=
  { current_subtask := [{ objective := "root goal" }, { objective := "child step" }],
    max_depth := 1 }

/-- Fixture reflection payload requesting only a decompose. -/
def c1Payload : ReflectFailure :=
  { decompose_subtask := some { need_decompose := true, failed_subtask := "child step" } }

/-- Fixture follow-up payload proposing further exploration. -/
def c1Judge : FollowupJudge := { to_further_explore := true, subtask := "child step" }

/-- Fixture user query. -/
def c1Query : String := "root goal"

/-- C1 counterexample: with the stack length already equal to `max_depth`,
the reflection decompose push does not leave the stack unchanged and does
not yield the depth-exceeded hint — its guard is `length <= max_depth`, so
it appends, reaching length `max_depth + 1`. -/
theorem reflect_push_at_max_depth_appends :
    c1State.current_subtask.length = c1State.max_depth
    ∧ (reflect_failure c1State (some c1Payload) "" "").1.current_subtask.length
        = c1State.max_depth + 1
    ∧ (reflect_failure c1State (some c1Payload) "" "").2
        ≠ ReflectResult.depthLimited max_depth_hint := by decide

/-- C1 amended: over every sequence of reply events the stack length stays
at most `max_depth + 1`; a follow-up push attempted when the length is at
least `max_depth` leaves the length unchanged and yields the depth hint; a
reflection push is refused with the hint exactly when the length exceeds
`max_depth`, while at length equal to `max_depth` it still appends. -/
theorem depth_bound_amended :
    (∀ (md : Nat) (q : String) (p0 : Option SubtasksDecomposition)
        (events : List ReplyEvent),
        (runReply md q p0 events).current_subtask.length ≤ md + 1)
    ∧ (∀ (st : AgentState) (j : FollowupJudge) (g rep : String),
        j.to_further_explore = true →
        st.max_depth ≤ st.current_subtask.length →
        (follow_up st j g rep).1.current_subtask.length = st.current_subtask.length
        ∧ (follow_up st j g rep).2 = FollowUpResult.depthLimited max_depth_hint)
    ∧ (∀ (st : AgentState) (r : ReflectFailure) (g rep : String),
        rephraseRequested r = false → decomposeRequested r = true →
        st.max_depth + 1 ≤ st.current_subtask.length →
        reflect_failure st (some r) g rep = (st, ReflectResult.depthLimited max_depth_hint))
    ∧ (∀ (st : AgentState) (r : ReflectFailure) (g rep : String),
        rephraseRequested r = false → decomposeRequested r = true →
        st.current_subtask.length = st.max_depth →
        (reflect_failure st (some r) g rep).1.current_subtask.length
            = st.max_depth + 1) := by
  refine ⟨?_, ?_, ?_, ?_⟩
  · intro md q p0 events
    have h0 := initReply_shape md q p0
    have h := foldl_replyStep_inv events (initReply md q p0) (by omega)
    have := h.1
    rw [h.2, h0.2] at this
    exact this
  · intro st j g rep hexp hge
    have hb := followUpBase_length st j
    have hbm := followUpBase_max_depth st j
    have h2 := (follow_up_deeper_or_blocked st j g rep hexp).2 (by omega)
    rw [h2]
    exact ⟨hb, rfl⟩
  · intro st r g rep hr hd hlen
    have hnle : ¬ (st.current_subtask.length ≤ st.max_depth) := by omega
    simp [reflect_failure, hr, hd, hnle]
  · intro st r g rep hr hd hlen
    have hle : st.current_subtask.length ≤ st.max_depth := by omega
    have hs := (summarize_shape st g rep).1
    simp [reflect_failure, hr, hd, hle, List.length_append, hs]
    omega

theorem depth_bound_amended_witness :
    (runReply 1 c1Query none []).current_subtask.length
        ≤ 1 + 1
    ∧ ((follow_up c1State c1Judge "" "").1.current_subtask.length
          = c1State.current_subtask.length
        ∧ (follow_up c1State c1Judge "" "").2
          = FollowUpResult.depthLimited max_depth_hint)
    ∧ reflect_failure c1DeepState (some c1Payload) "" ""
        = (c1DeepState, ReflectResult.depthLimited max_depth_hint)
    ∧ (reflect_failure c1State (some c1Payload) "" "").1.current_subtask.length
        = c1State.max_depth + 1 :=
  ⟨depth_bound_amended.1 1 c1Query none [],
   depth_bound_amended.2.1 c1State c1Judge "" "" rfl (by decide),
   depth_bound_amended.2.2.1 c1DeepState c1Payload "" "" (by decide) (by decide) (by decide),
   depth_bound_amended.2.2.2 c1State c1Payload "" "" (by decide) (by decide) (by decide)⟩

/-! ### Report-ordinal bookkeeping -/

theorem followUpBase_reports (st : AgentState) (j : FollowupJudge) :
    (followUpBase st j).written_reports = st.written_reports
    ∧ (followUpBase st j).report_index = st.report_index := by
  simp only [followUpBase]
  split_ifs <;> exact ⟨rfl, rfl⟩

/-- Per-call ordinal behaviour of `summarize_intermediate_results`: a call
with no intermediate memory writes nothing and changes nothing, a writing
call uses the current `report_index` as ordinal and increments it by one. -/
theorem summarize_ordinal_step (st : AgentState) (g rep : String) :
    (get_intermediate_memory st.memory false = [] →
      summarize_intermediate_results st g rep = (st, SummarizeResult.noResultHint))
    ∧ (get_intermediate_memory st.memory false ≠ [] →
      (summarize_intermediate_results st g rep).1.written_reports
          = st.written_reports ++ [st.report_index]
      ∧ (summarize_intermediate_results st g rep).1.report_index
          = st.report_index + 1) := by
  constructor
  · intro h
    simp [summarize_intermediate_results, h]
  · intro h
    have hlen : ¬ (get_intermediate_memory st.memory false).length = 0 := by
      simpa [List.length_eq_zero] using h
    simp only [summarize_intermediate_results, if_neg hlen]
    split_ifs <;> simp [setTopKnowledgeGaps]

theorem summarize_ordinal_inv (st : AgentState) (g rep : String)
    (h1 : st.written_reports = List.range' 1 (st.report_index - 1))
    (h2 : 1 ≤ st.report_index) :
    (summarize_intermediate_results st g rep).1.written_reports
        = List.range' 1 ((summarize_intermediate_results st g rep).1.report_index - 1)
    ∧ 1 ≤ (summarize_intermediate_results st g rep).1.report_index := by
  by_cases h : get_intermediate_memory st.memory false = []
  · rw [(summarize_ordinal_step st g rep).1 h]
    exact ⟨h1, h2⟩
  · have hs := (summarize_ordinal_step st g rep).2 h
    have hE : List.range' 1 (st.report_index - 1) ++ [st.report_index]
        = List.range' 1 st.report_index := by
      have hc := (@List.range'_concat 1 1 (st.report_index - 1)).symm
      rw [show 1 + 1 * (st.report_index - 1) = st.report_index by omega] at hc
      rw [show st.report_index - 1 + 1 = st.report_index by omega] at hc
      exact hc
    refine ⟨?_, by omega⟩
    rw [hs.1, hs.2, h1, Nat.add_sub_cancel, hE]

theorem replyStep_ordinal_inv (st : AgentState) (e : ReplyEvent)
    (h1 : st.written_reports = List.range' 1 (st.report_index - 1))
    (h2 : 1 ≤ st.report_index) :
    (replyStep st e).written_reports
        = List.range' 1 ((replyStep st e).report_index - 1)
    ∧ 1 ≤ (replyStep st e).report_index := by
  cases e with
  | followUpEvt j g rep =>
    have hB := followUpBase_reports st j
    simp only [replyStep, follow_up]
    split_ifs with hc hc2
    · have := summarize_ordinal_inv (followUpBase st j) g rep
        (by rw [hB.1, hB.2]; exact h1) (by rw [hB.2]; exact h2)
      simpa using this
    · rw [hB.1, hB.2]; exact ⟨h1, h2⟩
    · rw [hB.1, hB.2]; exact ⟨h1, h2⟩
  | reflectEvt r g rep =>
    simp only [replyStep, reflect_failure]
    split_ifs with hr hd hlen
    · exact ⟨h1, h2⟩
    · simpa using summarize_ordinal_inv st g rep h1 h2
    · exact ⟨h1, h2⟩
    · exact ⟨h1, h2⟩
  | decomposeEvt p =>
    simp only [replyStep, decompose_and_expand_subtask]
    split_ifs <;> exact ⟨h1, h2⟩
  | summarizeEvt g rep => exact summarize_ordinal_inv st g rep h1 h2
  | finishEvt =>
    simp only [replyStep, finish_current_subtask]
    split_ifs <;> exact ⟨h1, h2⟩
  | genResponseEvt => exact ⟨h1, h2⟩
  | memoryEvt mem => exact ⟨h1, h2⟩

theorem foldl_ordinal_inv (events : List ReplyEvent) :
    ∀ st : AgentState,
      st.written_reports = List.range' 1 (st.report_index - 1) →
      1 ≤ st.report_index →
      (events.foldl replyStep st).written_reports
          = List.range' 1 ((events.foldl replyStep st).report_index - 1)
      ∧ 1 ≤ (events.foldl replyStep st).report_index := by
  induction events with
  | nil => exact fun st h1 h2 => ⟨h1, h2⟩
  | cons e es ih =>
    intro st h1 h2
    simp only [List.foldl_cons]
    have h := replyStep_ordinal_inv st e h1 h2
    exact ih (replyStep st e) h.1 h.2

theorem initReply_reports (md : Nat) (q : String) (p0 : Option SubtasksDecomposition) :
    (initReply md q p0).written_reports = []
    ∧ (initReply md q p0).report_index = 1 := by
  simp only [initReply, decompose_and_expand_subtask, pushSubtask]
  split_ifs <;> simp [setTopWorkingPlan, setTopKnowledgeGaps]

/-- C6: each writing `summarize_intermediate_results` call uses the current
`report_index` as the file ordinal and increments it by exactly one, a call
with no intermediate memory writes nothing and leaves the counter
unchanged; hence over any run the written ordinals are exactly the
consecutive sequence `1, 2, ..., report_index - 1`. -/
theorem report_ordinal_monotone :
    (∀ (st : AgentState) (g rep : String),
      (get_intermediate_memory st.memory false = [] →
        summarize_intermediate_results st g rep = (st, SummarizeResult.noResultHint))
      ∧ (get_intermediate_memory st.memory false ≠ [] →
        (summarize_intermediate_results st g rep).1.written_reports
            = st.written_reports ++ [st.report_index]
        ∧ (summarize_intermediate_results st g rep).1.report_index
            = st.report_index + 1))
    ∧ (∀ (md : Nat) (q : String) (p0 : Option SubtasksDecomposition)
        (events : List ReplyEvent),
        (runReply md q p0 events).written_reports
            = List.range' 1 ((runReply md q p0 events).report_index - 1)) := by
  refine ⟨summarize_ordinal_step, ?_⟩
  intro md q p0 events
  have h0 := initReply_reports md q p0
  exact (foldl_ordinal_inv events (initReply md q p0)
    (by rw [h0.1, h0.2]; simp) (by rw [h0.2])).1

/-- Fixture state with empty memory. -/
def c6Empty : AgentState := { current_subtask := [{ objective := "root goal" }] }

/-- Fixture state with one plain memory message. -/
def c6State : AgentState :=
  { current_subtask := [{ objective := "root goal" }],
    memory := [{ name := "assistant", role := "assistant", blocks := [Block.text "notes"] }] }

/-- Fixture event list performing two writing summarize calls. -/
def c6Events : List ReplyEvent :=
  [ReplyEvent.memoryEvt c6State.memory, ReplyEvent.summarizeEvt "" "",
   ReplyEvent.memoryEvt c6State.memory, ReplyEvent.summarizeEvt "" ""]

theorem report_ordinal_monotone_witness :
    summarize_intermediate_results c6Empty "" "" = (c6Empty, SummarizeResult.noResultHint)
    ∧ ((summarize_intermediate_results c6State "" "").1.written_reports
          = c6State.written_reports ++ [c6State.report_index]
        ∧ (summarize_intermediate_results c6State "" "").1.report_index
          = c6State.report_index + 1)
    ∧ (runReply 2 c1Query none c6Events).written_reports
        = List.range' 1 ((runReply 2 c1Query none c6Events).report_index - 1) :=
  ⟨(report_ordinal_monotone.1 c6Empty "" "").1 (by decide),
   (report_ordinal_monotone.1 c6State "" "").2 (by decide),
   report_ordinal_monotone.2 2 c1Query none c6Events⟩

/-- Fixture state with a root subtask and one plain memory message, as left
by some research activity. -/
def c5State : AgentState :=
  { current_subtask := [{ objective := "root goal" }],
    memory := [{ name := "assistant", role := "assistant", blocks := [Block.text "found"] }] }

/-- C5 evidence: after exactly one writing summarize call, only the file
with ordinal 1 exists, but the final-report generation
(`for index in range(self.report_index)`) reads the files with ordinals
1 and 2 — the ordinal-2 file was never written. -/
theorem final_report_reads_unwritten_ordinal :
    (summarize_intermediate_results c5State "" "").1.written_reports = [1]
    ∧ (summarize_intermediate_results c5State "" "").1.report_index = 2
    ∧ generate_report_source (summarize_intermediate_results c5State "" "").1
        = ReportSource.fromArtifacts [1, 2]
    ∧ 2 ∉ (summarize_intermediate_results c5State "" "").1.written_reports := by
  decide

/-- Fixture state whose stack holds only the root subtask. -/
def c8State : AgentState := { current_subtask := [{ objective := "root goal" }] }

/-- Fixture state whose stack holds two subtasks. -/
def c8TwoState : AgentState :=
  { current_subtask := [{ objective := "root goal" }, { objective := "child step" }] }

/-- C8 evidence: with more than one record, `finish_current_subtask` pops the
top record and reports its objective; but at the terminal stack size the
source builds the all-done `ToolResponse` without returning it, so the tool
call yields `None` instead of the promised tool-level error response (the
stack is at least left unchanged). -/
theorem finish_missing_return_on_terminal_stack :
    (finish_current_subtask c8TwoState).1.current_subtask
        = [{ objective := "root goal" }]
    ∧ (finish_current_subtask c8TwoState).2
        = some (FinishResult.subtaskComplete "child step" "root goal")
    ∧ (finish_current_subtask c8State).2 = none
    ∧ (finish_current_subtask c8State).1 = c8State := by
  decide

/-! ### The memory-compaction frame property -/

/-- The stop condition of the backward walk of `_replace_intermediate_memory`
exactly as the source checks it: a report message, a user message, or a
message with a summarize tool-use block. -/
def codeStop (m : Msg) : Bool :=
  m.isReportMsg || m.role == "user" || m.hasSummarizeToolUse

/-- The boundary as the specification words it: a message marked as report,
a user-role message, or an assistant message whose tool-use blocks include
the summarize function. -/
def specBoundary (m : Msg) : Bool :=
  m.isReportMsg || m.role == "user" || (m.role == "assistant" && m.hasSummarizeToolUse)

theorem hasSummarize_hasToolUse (m : Msg) (h : m.hasSummarizeToolUse = true) :
    m.hasToolUse = true := by
  simp only [Msg.hasSummarizeToolUse, Msg.toolUseBlocks, List.any_eq_true] at h
  obtain ⟨b, hb, hp⟩ := h
  rw [List.mem_filter] at hb
  simp only [Msg.hasToolUse, List.any_eq_true]
  exact ⟨b, hb.1, hb.2⟩

theorem replaceRemoveNum_cons (m : Msg) (rest : List Msg) :
    replaceRemoveNum (m :: rest)
      = if codeStop m then 0 else replaceRemoveNum rest + 1 := by
  cases hR : m.isReportMsg with
  | true => simp [replaceRemoveNum, codeStop, hR]
  | false =>
    cases hT : m.hasToolUse with
    | true =>
      cases hS : m.hasSummarizeToolUse <;>
        simp [replaceRemoveNum, codeStop, hR, hT, hS]
    | false =>
      have hS : m.hasSummarizeToolUse = false := by
        cases hS2 : m.hasSummarizeToolUse
        · rfl
        · exact absurd (hasSummarize_hasToolUse m hS2) (by simp [hT])
      simp [replaceRemoveNum, codeStop, hR, hT, hS]

theorem replaceRemoveNum_le (l : List Msg) : replaceRemoveNum l ≤ l.length := by
  induction l with
  | nil => simp [replaceRemoveNum]
  | cons m rest ih =>
    rw [replaceRemoveNum_cons]
    split_ifs <;> simp only [List.length_cons] <;> omega

/-- `_replace_intermediate_memory` splits the memory at the last message
meeting the source's stop condition: everything up to and including it is
kept, the trailing run of non-stop messages is deleted. -/
theorem replace_intermediate_memory_split (mem : List Msg) :
    ∃ kept deleted, mem = kept ++ deleted
      ∧ replace_intermediate_memory mem = kept
      ∧ (∀ m ∈ deleted, codeStop m = false)
      ∧ (∀ m, kept.getLast? = some m → codeStop m = true) := by
  induction mem using List.reverseRecOn with
  | nil => exact ⟨[], [], rfl, rfl, by simp, by simp⟩
  | append_singleton l m ih =>
    by_cases hstop : codeStop m = true
    · refine ⟨l ++ [m], [], by simp, ?_, by simp, ?_⟩
      · simp only [replace_intermediate_memory, List.reverse_append,
          List.reverse_singleton, List.singleton_append, replaceRemoveNum_cons,
          if_pos hstop, Nat.sub_zero, List.take_length]
      · intro m2 hm2
        rw [List.getLast?_concat] at hm2
        cases hm2
        exact hstop
    · have hstopf : codeStop m = false := by simpa using hstop
      obtain ⟨kept, deleted, hsplit, hrep, hdel, hlast⟩ := ih
      refine ⟨kept, deleted ++ [m], by rw [hsplit]; simp, ?_, ?_, hlast⟩
      · have hk := replaceRemoveNum_le l.reverse
        rw [List.length_reverse] at hk
        simp only [replace_intermediate_memory, List.reverse_append,
          List.reverse_singleton, List.singleton_append, replaceRemoveNum_cons,
          if_neg hstop, List.length_append, List.length_singleton]
        rw [show l.length + 1 - (replaceRemoveNum l.reverse + 1)
            = l.length - replaceRemoveNum l.reverse by omega]
        rw [List.take_append_eq_append_take,
          show l.length - replaceRemoveNum l.reverse - l.length = 0 by omega]
        simpa using hrep
      · intro m2 hm2
        rw [List.mem_append] at hm2
        rcases hm2 with h | h
        · exact hdel m2 h
        · rw [List.mem_singleton] at h
          rw [h]
          exact hstopf

/-- C7: provided every message carrying a summarize tool-use block has the
assistant role (as every tool-calling message the agent stores does), the
compaction keeps every entry up to and including the most recent boundary —
report message, user message, or assistant message with a summarize
tool-use — and deletes exactly the entries strictly after it. -/
theorem replace_intermediate_memory_frame (mem : List Msg)
    (hA : ∀ m ∈ mem, m.hasSummarizeToolUse = true → m.role = "assistant") :
    ∃ kept deleted, mem = kept ++ deleted
      ∧ replace_intermediate_memory mem = kept
      ∧ (∀ m ∈ deleted, specBoundary m = false)
      ∧ (∀ m, kept.getLast? = some m → specBoundary m = true) := by
  obtain ⟨kept, deleted, hsplit, hrep, hdel, hlast⟩ :=
    replace_intermediate_memory_split mem
  have heq : ∀ m ∈ mem, specBoundary m = codeStop m := by
    intro m hm
    by_cases hs : m.hasSummarizeToolUse = true
    · have hrole := hA m hm hs
      simp [specBoundary, codeStop, hs, hrole]
    · have hs2 : m.hasSummarizeToolUse = false := by simpa using hs
      simp [specBoundary, codeStop, hs2]
  refine ⟨kept, deleted, hsplit, hrep, ?_, ?_⟩
  · intro m hm
    rw [heq m (by rw [hsplit]; exact List.mem_append_right _ hm)]
    exact hdel m hm
  · intro m hm
    have hmem : m ∈ kept := List.mem_of_getLast?_eq_some hm
    rw [heq m (by rw [hsplit]; exact List.mem_append_left _ hmem)]
    exact hlast m hm

/-- Fixture memory: a user question, then a report boundary, then trailing
research activity. -/
def c7Memory : List Msg :=
  [{ name := "user", role := "user", blocks := [Block.text "question"] },
   { name := "assistant", role := "assistant", blocks := [Block.text "report"],
     isReportMsg := true },
   { name := "assistant", role := "assistant",
     blocks := [Block.toolUse "id1" "tavily_search"] },
   { name := "system", role := "system",
     blocks := [Block.toolResult "id1" "tavily_search"] }]

theorem replace_intermediate_memory_frame_witness :
    ∃ kept deleted, c7Memory = kept ++ deleted
      ∧ replace_intermediate_memory c7Memory = kept
      ∧ (∀ m ∈ deleted, specBoundary m = false)
      ∧ (∀ m, kept.getLast? = some m → specBoundary m = true) :=
  replace_intermediate_memory_frame c7Memory (by decide)

end DeepResearch

